import Mathlib

/-!
Verification of the MarkupExplorer interactive shell (src/main.rs).

The development shallowly embeds the program's pure core: the line
tokenizer `parse_line`, the session state, and the per-line command
interpreter `process_line` (modelled as `executeTokens` / `execute`).
The two external collaborators — the HTTP fetch (reqwest) and the
markup-tree library (soup) — are passed in as explicit function
parameters, following the program's own interface to them: the fetch
returns either a transport error or a (status, body) pair, and the
markup tree exposes find-first-by-tag, find-first-any-tag and the
root's children.

Rust `usize` arithmetic is modelled as `Nat` with an explicit
`% 2 ^ 64` where the source can underflow (`cols - 3`): in a release
build Rust wraps there, which the model follows.  Panics (`expect`,
`unwrap`, out-of-bounds indexing) are modelled as the distinguished
`Outcome.crash` result, kept separate from the recoverable
`Outcome.err` that the REPL loop prints and survives.
-/

namespace MarkupExplorer

/-- Character-level scan of `MarkupExplorer::parse_line` (src/main.rs,
`parse_line`): one pass over the line with the two flags `quoted` and
`escaped`, accumulating the current token in `next` and the finished
tokens in `args`.  The branch order is exactly the source's:
backslash first, then the escaped case, then closing quote, opening
quote, unquoted space, and the default push. -/
def parseLineAux : List Char → Bool → Bool → List Char → List (List Char) → List (List Char)
  | [], _, _, next, args => if next.length > 0 then args ++ [next] else args
  | c :: cs, quoted, escaped, next, args =>
    if c = '\\' then parseLineAux cs quoted true next args
    else if escaped = true then parseLineAux cs quoted false (next ++ [c]) args
    else if quoted = true ∧ c = '"' then parseLineAux cs false escaped [] (args ++ [next])
    else if c = '"' then parseLineAux cs true escaped next args
    else if quoted = false ∧ c = ' ' then parseLineAux cs quoted escaped [] (args ++ [next])
    else parseLineAux cs quoted escaped (next ++ [c]) args

/-- The tokenizer `MarkupExplorer::parse_line`: scan the line's
characters starting unquoted and unescaped with an empty current
token. -/
def parse_line (line : String) : List String :=
  (parseLineAux line.data false false [] []).map String.mk

/-- Modelled from the spec's round-trip property (§8): wrap a token
that contains a space in double quotes, otherwise leave it alone. -/
def quoteToken (t : String) : String :=
  if ' ' ∈ t.data then "\"" ++ t ++ "\"" else t

/-- Modelled from the spec's round-trip property (§8): join the
(possibly quoted) tokens with single spaces. -/
def joinTokens : List String → String
  | [] => ""
  | [t] => quoteToken t
  | t :: t' :: ts => quoteToken t ++ " " ++ joinTokens (t' :: ts)

/-- Character-level counterpart of `quoteToken`. -/
def quoteChars (t : List Char) : List Char :=
  if ' ' ∈ t then '"' :: (t ++ ['"']) else t

/-- Character-level counterpart of `joinTokens`. -/
def joinChars : List (List Char) → List Char
  | [] => []
  | [t] => quoteChars t
  | t :: t' :: ts => quoteChars t ++ ' ' :: joinChars (t' :: ts)

/-- The fields of `struct MarkupExplorer`: the last targeted URL, the
fetched document text and the display width.  `MarkupExplorer::new`
starts with no URL, no contents and `cols = Some(80)`. -/
structure SessionState where
  url : Option String
  contents : Option String
  cols : Option Nat
deriving DecidableEq

/-- `MarkupExplorer::new()`. -/
def SessionState.new : SessionState := ⟨none, none, some 80⟩

/-- The modulus of Rust's 64-bit `usize`. -/
abbrev USIZE : Nat := 2 ^ 64

/-- Rust's `str::parse` for an unsigned integer type whose values are
the naturals below `bound`: an optional leading `+`, then at least one
ASCII digit, rejecting any other character and any value reaching
`bound` (overflow). -/
def parseUInt (bound : Nat) (s : String) : Option Nat :=
  let cs := match s.data with
    | '+' :: rest => rest
    | cs => cs
  if !cs.isEmpty && cs.all (fun c => c.isDigit) then
    let v := cs.foldl (fun a c => a * 10 + (c.toNat - 48)) 0
    if v < bound then some v else none
  else none

/-- `str::parse::<u32>()` as used by the `head` command. -/
def parseU32 (s : String) : Option Nat := parseUInt (2 ^ 32) s

/-- `str::parse::<usize>()` as used by the `cols` command. -/
def parseUsize (s : String) : Option Nat := parseUInt USIZE s

/-- Rust's `str::split("\n")`: the (possibly empty) chunks between
newlines; the empty string yields one empty chunk. -/
def splitLines : List Char → List (List Char)
  | [] => [[]]
  | c :: cs =>
    match splitLines cs with
    | [] => [[]]
    | l :: ls => if c = '\n' then [] :: l :: ls else (c :: l) :: ls

/-- The per-line rendering of the `head` command: when a width is set
and the line has more characters than it, print the first
`width - 3` characters (`usize` subtraction, hence the wrap-around
modulus) followed by `"..."`; otherwise print the line unchanged. -/
def renderChars (cols : Option Nat) (line : List Char) : List Char :=
  match cols with
  | some w =>
    if line.length > w then line.take ((w + USIZE - 3) % USIZE) ++ ['.', '.', '.'] else line
  | none => line

/-- String form of `renderChars`. -/
def renderLine (cols : Option Nat) (line : String) : String :=
  String.mk (renderChars cols line.data)

/-- The `head` print loop: print the (rendered) line, bump the
counter, and stop as soon as the counter reaches `max`.  The source
checks the counter only after printing, so even `max = 0` prints one
line of a non-empty document. -/
def headLoop (cols : Option Nat) (max : Nat) : List String → Nat → List String
  | [], _ => []
  | line :: rest, count =>
    renderLine cols line :: (if count + 1 ≥ max then [] else headLoop cols max rest (count + 1))

/-- A node of the externally-owned markup tree: its tag name, its
attributes in iteration order, and its direct children. -/
inductive Node where
  | node (name : String) (attrs : List (String × String)) (children : List Node) : Node

/-- Tag name of a node. -/
def Node.name : Node → String
  | .node n _ _ => n

/-- Attributes of a node, in the collaborator's iteration order. -/
def Node.attrs : Node → List (String × String)
  | .node _ a _ => a

/-- Direct children of a node. -/
def Node.children : Node → List Node
  | .node _ _ c => c

/-- The interface of the soup collaborator used by `find`:
`soup.tag(name).find()`, `soup.tag(true).find()` and
`soup.children()`. -/
structure Soup where
  tagFind : String → Option Node
  tagTrueFind : Option Node
  children : List Node

/-- Result of running one line: `ok`, a recoverable error (the REPL
prints it and continues), or a crash (an `expect`/`unwrap`/indexing
panic aborting the process). -/
inductive Outcome where
  | ok : Outcome
  | err (msg : String) : Outcome
  | crash (msg : String) : Outcome
deriving DecidableEq

/-- What one `process_line` call produces: its outcome, the session
state it leaves behind, and the lines it printed along the way. -/
structure ExecResult where
  outcome : Outcome
  state : SessionState
  output : List String
deriving DecidableEq

/-- The sub-operation loop of the `find` command: consume the
remaining tokens left to right against the running working node,
which starts unset.  Returns the printed lines and the outcome.
`name`, `attrs` and `values` unwrap the working node, so with it
unset they crash; an absent tag argument crashes the `expect`; a
missing tag is a recoverable error, as is an unknown keyword. -/
def findLoop (soup : Soup) : List String → Option Node → List String × Outcome
  | [], _ => ([], .ok)
  | value :: rest, node =>
    if value = "tag" then
      match rest with
      | [] => ([], .crash "No tag specified!")
      | tag :: rest' =>
        match (if tag = "true" then soup.tagTrueFind else soup.tagFind tag) with
        | none => ([], .err ("Unable to find tag " ++ tag))
        | some n => findLoop soup rest' (some n)
    else if value = "name" then
      match node with
      | none => ([], .crash "called Option::unwrap on a None value")
      | some n =>
        let r := findLoop soup rest (some n)
        (n.name :: r.1, r.2)
    else if value = "attrs" then
      match node with
      | none => ([], .crash "called Option::unwrap on a None value")
      | some n =>
        let r := findLoop soup rest (some n)
        (n.attrs.map Prod.fst ++ r.1, r.2)
    else if value = "values" then
      match node with
      | none => ([], .crash "called Option::unwrap on a None value")
      | some n =>
        let r := findLoop soup rest (some n)
        (n.attrs.map (fun p => p.1 ++ " = " ++ p.2) ++ r.1, r.2)
    else if value = "tree" then
      let children := match node with
        | some n => n.children
        | none => soup.children
      let r := findLoop soup rest node
      (children.map Node.name ++ r.1, r.2)
    else
      ([], .err ("Unrecognized param: " ++ value))

/-- `MarkupExplorer::url`: record the target URL first, then fetch;
a transport error or a server-error (5xx) status is a failure, any
other response stores the body as the contents. -/
def urlCmd (fetch : String → Except String (Nat × String)) (u : String)
    (st : SessionState) : Outcome × SessionState :=
  let st1 := { st with url := some u }
  match fetch u with
  | .error e => (.err e, st1)
  | .ok sb =>
    if 500 ≤ sb.1 ∧ sb.1 ≤ 599 then (.err ("server error: " ++ toString sb.1), st1)
    else (.ok, { st1 with contents := some sb.2 })

/-- `MarkupExplorer::process_line` after tokenization: dispatch on the
first token.  `parse` stands for `soup::Soup::new` and `fetch` for the
HTTP collaborator.  An empty token sequence and an unrecognized
command are no-ops. -/
def executeTokens (parse : String → Soup) (fetch : String → Except String (Nat × String))
    (tokens : List String) (st : SessionState) : ExecResult :=
  match tokens with
  | [] => ⟨.ok, st, []⟩
  | command :: args =>
    if command = "cols" then
      match args with
      | [] => ⟨.crash "removal index out of bounds", st, []⟩
      | count :: _ =>
        if count = "max" then ⟨.ok, { st with cols := none }, []⟩
        else
          match parseUsize count with
          | none => ⟨.err "invalid digit found in string", st, []⟩
          | some n => ⟨.ok, { st with cols := some n }, []⟩
    else if command = "find" then
      match st.contents with
      | none => ⟨.crash "No contents to parse.", st, []⟩
      | some c =>
        let r := findLoop (parse c) args none
        ⟨r.2, st, r.1⟩
    else if command = "url" then
      match args with
      | [] => ⟨.crash "index out of bounds", st, []⟩
      | u :: _ =>
        let r := urlCmd fetch u st
        ⟨r.1, r.2, []⟩
    else if command = "head" then
      match args with
      | [] => ⟨.crash "index out of bounds", st, []⟩
      | m :: _ =>
        match parseU32 m with
        | none => ⟨.err "invalid digit found in string", st, []⟩
        | some max =>
          match st.contents with
          | none => ⟨.err "No contents available.", st, []⟩
          | some c => ⟨.ok, st, headLoop st.cols max ((splitLines c.data).map String.mk) 0⟩
    else ⟨.ok, st, []⟩

/-- `MarkupExplorer::process_line`: tokenize the raw line, then
dispatch. -/
def execute (parse : String → Soup) (fetch : String → Except String (Nat × String))
    (line : String) (st : SessionState) : ExecResult :=
  executeTokens parse fetch (parse_line line) st

/-- A concrete (empty-tree) soup collaborator, for evaluating the
interpreter at concrete inputs. -/
def parse0 : String → Soup := fun _ => ⟨fun _ => none, none, []⟩

/-- A concrete fetch collaborator that always transport-errors. -/
def fetch0 : String → Except String (Nat × String) := fun _ => .error "connection refused"

/-- A concrete fetch collaborator answering 404 with body `"nf"`. -/
def fetch404 : String → Except String (Nat × String) := fun _ => .ok (404, "nf")

/-! ### Helper lemmas -/

theorem data_append (s t : String) : (s ++ t).data = s.data ++ t.data := by
  cases s; cases t; rfl

theorem mk_data (s : String) : String.mk s.data = s := rfl

theorem eq_empty_of_data_eq_nil (s : String) (h : s.data = []) : s = "" := by
  cases s with
  | mk d =>
    have h' : d = [] := h
    subst h'
    rfl

theorem quoteToken_data (t : String) : (quoteToken t).data = quoteChars t.data := by
  unfold quoteToken quoteChars
  split
  · simp [data_append]
  · rfl

theorem joinTokens_data : ∀ ts : List String,
    (joinTokens ts).data = joinChars (ts.map String.data) := by
  intro ts
  induction ts with
  | nil => rfl
  | cons t ts ih =>
    cases ts with
    | nil => simpa [joinTokens, joinChars] using quoteToken_data t
    | cons t' ts' =>
      simp only [joinTokens, joinChars, List.map, data_append, quoteToken_data, ih]
      simp

/-- Scanning a run of ordinary characters (no backslash, quote or
space) outside quotes just moves them onto the current token. -/
theorem scan_plain (t : List Char) : ∀ (cs next : List Char) (args : List (List Char)),
    (∀ c ∈ t, c ≠ '\\' ∧ c ≠ '"' ∧ c ≠ ' ') →
    parseLineAux (t ++ cs) false false next args =
      parseLineAux cs false false (next ++ t) args := by
  induction t with
  | nil => intro cs next args _; simp
  | cons c t ih =>
    intro cs next args h
    obtain ⟨h1, h2, h3⟩ := h c (by simp)
    have ht : ∀ x ∈ t, x ≠ '\\' ∧ x ≠ '"' ∧ x ≠ ' ' := fun x hx => h x (by simp [hx])
    calc parseLineAux ((c :: t) ++ cs) false false next args
        = parseLineAux (t ++ cs) false false (next ++ [c]) args := by
          simp [parseLineAux, h1, h2, h3]
      _ = parseLineAux cs false false ((next ++ [c]) ++ t) args := ih cs (next ++ [c]) args ht
      _ = parseLineAux cs false false (next ++ (c :: t)) args := by simp

/-- Scanning a run of characters containing no backslash and no quote
inside a quoted region moves them onto the current token (spaces
included). -/
theorem scan_quoted (t : List Char) : ∀ (cs next : List Char) (args : List (List Char)),
    (∀ c ∈ t, c ≠ '\\' ∧ c ≠ '"') →
    parseLineAux (t ++ cs) true false next args =
      parseLineAux cs true false (next ++ t) args := by
  induction t with
  | nil => intro cs next args _; simp
  | cons c t ih =>
    intro cs next args h
    obtain ⟨h1, h2⟩ := h c (by simp)
    have ht : ∀ x ∈ t, x ≠ '\\' ∧ x ≠ '"' := fun x hx => h x (by simp [hx])
    calc parseLineAux ((c :: t) ++ cs) true false next args
        = parseLineAux (t ++ cs) true false (next ++ [c]) args := by
          simp [parseLineAux, h1, h2]
      _ = parseLineAux cs true false ((next ++ [c]) ++ t) args := ih cs (next ++ [c]) args ht
      _ = parseLineAux cs true false (next ++ (c :: t)) args := by simp

/-- Character-level round trip: tokenizing a joined line of plain,
non-empty tokens (only the last may contain spaces) appends exactly
those tokens to the accumulator. -/
theorem roundtrip_chars : ∀ (ts : List (List Char)) (args : List (List Char)),
    (∀ t ∈ ts, t ≠ [] ∧ '"' ∉ t ∧ '\\' ∉ t) →
    (∀ t ∈ ts.dropLast, ' ' ∉ t) →
    parseLineAux (joinChars ts) false false [] args = args ++ ts := by
  intro ts
  induction ts with
  | nil => intro args _ _; simp [joinChars, parseLineAux]
  | cons t ts ih =>
    intro args hplain hsp
    obtain ⟨hne, hq, hb⟩ := hplain t (by simp)
    cases ts with
    | nil =>
      by_cases hspace : ' ' ∈ t
      · have hj : joinChars [t] = '"' :: (t ++ ['"']) := by
          simp [joinChars, quoteChars, hspace]
        rw [hj]
        have h1 : parseLineAux ('"' :: (t ++ ['"'])) false false [] args =
            parseLineAux (t ++ ['"']) true false [] args := by
          simp [parseLineAux]
        rw [h1, scan_quoted t ['"'] [] args
          (fun c hc => ⟨fun h => hb (h ▸ hc), fun h => hq (h ▸ hc)⟩)]
        simp [parseLineAux]
      · have hj : joinChars [t] = t := by simp [joinChars, quoteChars, hspace]
        rw [hj, show t = t ++ ([] : List Char) by simp,
          scan_plain t [] [] args
            (fun c hc => ⟨fun h => hb (h ▸ hc), fun h => hq (h ▸ hc),
              fun h => hspace (h ▸ hc)⟩)]
        simp [parseLineAux, List.length_pos, hne]
    | cons t' ts' =>
      have hspace : ' ' ∉ t := hsp t (by simp)
      have hj : joinChars (t :: t' :: ts') = t ++ (' ' :: joinChars (t' :: ts')) := by
        simp [joinChars, quoteChars, hspace]
      rw [hj, scan_plain t (' ' :: joinChars (t' :: ts')) [] args
        (fun c hc => ⟨fun h => hb (h ▸ hc), fun h => hq (h ▸ hc),
          fun h => hspace (h ▸ hc)⟩)]
      have h2 : parseLineAux (' ' :: joinChars (t' :: ts')) false false ([] ++ t) args =
          parseLineAux (joinChars (t' :: ts')) false false [] (args ++ [t]) := by
        simp [parseLineAux]
      rw [h2, ih (args ++ [t]) (fun u hu => hplain u (by simp [hu]))
        (fun u hu => hsp u (by simp at hu ⊢; exact Or.inr hu))]
      simp

/-- Closed form of the `head` print loop while the counter is still
below the bound: it prints the next `max - count` lines, rendered. -/
theorem headLoop_eq_take (cols : Option Nat) (max : Nat) :
    ∀ (lines : List String) (count : Nat), count < max →
      headLoop cols max lines count = (lines.take (max - count)).map (renderLine cols) := by
  intro lines
  induction lines with
  | nil => intro count _; simp [headLoop]
  | cons l ls ih =>
    intro count hc
    by_cases hstop : count + 1 ≥ max
    · have h1 : max - count = 1 := by omega
      simp [headLoop, hstop, h1]
    · have h2 : max - count = (max - (count + 1)) + 1 := by omega
      simp only [headLoop, if_neg hstop, ih (count + 1) (by omega), h2, List.take_succ_cons,
        List.map_cons]

/-! ### Claim theorems -/

/-- Claim C1 (code_bug evidence): with `document_text` unset, any
`find` invocation crashes the process at the contents `expect`; and
with contents set but the working node unset, the `name` sub-operation
crashes at the node `unwrap`.  Neither is the recoverable error the
claim mandates. -/
theorem find_unset_crashes :
    (execute parse0 fetch0 "find name" ⟨none, none, some 80⟩).outcome =
        Outcome.crash "No contents to parse." ∧
    (execute parse0 fetch0 "find name" ⟨none, some "<html></html>", some 80⟩).outcome =
        Outcome.crash "called Option::unwrap on a None value" := by
  constructor <;> rfl

/-- Claim C2: the `url` command succeeds exactly when the fetch
returns without a transport error and with a status outside the
server-error class 500–599; and whenever it succeeds on a response,
the body is stored as the contents. -/
theorem url_success_iff (fetch : String → Except String (Nat × String)) (u : String)
    (st : SessionState) :
    ((urlCmd fetch u st).1 = Outcome.ok ↔
      ∃ sb : Nat × String, fetch u = Except.ok sb ∧ ¬(500 ≤ sb.1 ∧ sb.1 ≤ 599)) ∧
    (∀ sb : Nat × String, fetch u = Except.ok sb → ¬(500 ≤ sb.1 ∧ sb.1 ≤ 599) →
      (urlCmd fetch u st).2.contents = some sb.2) := by
  constructor
  · cases h : fetch u with
    | error e => simp [urlCmd, h]
    | ok sb =>
      by_cases h5 : 500 ≤ sb.1 ∧ sb.1 ≤ 599
      · constructor
        · intro hok
          exact absurd hok (by simp [urlCmd, h, h5])
        · rintro ⟨sb', hsb', h5'⟩
          cases hsb'
          exact absurd h5 h5'
      · exact iff_of_true (by simp [urlCmd, h, h5]) ⟨sb, rfl, h5⟩
  · intro sb hsb h5
    simp [urlCmd, hsb, h5]

/-- Witness for `url_success_iff`: a 404 response succeeds and its
body is stored. -/
theorem url_success_iff_witness :
    (urlCmd fetch404 "http://x" SessionState.new).1 = Outcome.ok ∧
    (urlCmd fetch404 "http://x" SessionState.new).2.contents = some "nf" :=
  ⟨(url_success_iff fetch404 "http://x" SessionState.new).1.mpr
      ⟨(404, "nf"), rfl, by decide⟩,
    (url_success_iff fetch404 "http://x" SessionState.new).2 (404, "nf") rfl (by decide)⟩

/-- Claim C3: a failed fetch — transport error or 5xx status — leaves
the stored document text exactly as it was. -/
theorem url_fail_preserves_contents (fetch : String → Except String (Nat × String))
    (u : String) (st : SessionState) :
    (∀ e, fetch u = Except.error e → (urlCmd fetch u st).2.contents = st.contents) ∧
    (∀ sb : Nat × String, fetch u = Except.ok sb → 500 ≤ sb.1 → sb.1 ≤ 599 →
      (urlCmd fetch u st).2.contents = st.contents) := by
  constructor
  · intro e he; simp [urlCmd, he]
  · intro sb hsb h5 h5'; simp [urlCmd, hsb, h5, h5']

/-- Witness for `url_fail_preserves_contents`: a transport error
leaves the contents at their prior value. -/
theorem url_fail_preserves_contents_witness :
    fetch0 "http://x" = Except.error "connection refused" ∧
    (urlCmd fetch0 "http://x" ⟨none, some "old doc", some 80⟩).2.contents = some "old doc" :=
  ⟨rfl, (url_fail_preserves_contents fetch0 "http://x" ⟨none, some "old doc", some 80⟩).1
    "connection refused" rfl⟩

/-- Claim C4 counterexample: a `url` command whose fetch
transport-errors still overwrites `source_url` with the new (failed)
target, so `source_url` does not retain its prior value on failure. -/
theorem url_fail_updates_url_cex :
    (urlCmd fetch0 "http://new" ⟨some "http://old", none, some 80⟩).1 ≠ Outcome.ok ∧
    (urlCmd fetch0 "http://new" ⟨some "http://old", none, some 80⟩).2.url ≠
      some "http://old" := by
  constructor <;> decide

/-- Claim C4 (amended): `source_url` holds the most recently targeted
URL — every `url` command stores its argument there before fetching,
whether or not the fetch then succeeds. -/
theorem url_sets_target_url (fetch : String → Except String (Nat × String)) (u : String)
    (st : SessionState) : (urlCmd fetch u st).2.url = some u := by
  unfold urlCmd
  cases fetch u with
  | error e => rfl
  | ok sb =>
    by_cases h5 : 500 ≤ sb.1 ∧ sb.1 ≤ 599
    · simp [h5]
    · simp [h5]

/-- Claim C5 counterexample: after a backslash, a second backslash is
not appended literally — it only re-arms the escape flag and is
dropped, so `a\\b` tokenizes to `ab`, not to `a\b`. -/
theorem escaped_backslash_cex :
    parse_line "a\\\\b" = ["ab"] ∧ parse_line "a\\\\b" ≠ ["a\\b"] := by
  constructor <;> decide

/-- Claim C5 (amended): a backslash met with the escape flag clear is
dropped and sets the flag, and the immediately following character —
when it is not itself a backslash — is appended literally to the
current token regardless of its normal meaning (quote and space
included); a following backslash is instead dropped again, leaving
the flag set. -/
theorem escape_appends_next_literal (cs : List Char) (quoted : Bool) (next : List Char)
    (args : List (List Char)) (c : Char) (hc : c ≠ '\\') :
    parseLineAux ('\\' :: c :: cs) quoted false next args =
      parseLineAux cs quoted false (next ++ [c]) args := by
  simp [parseLineAux, hc]

/-- Witness for `escape_appends_next_literal`: an escaped quote is
appended literally. -/
theorem escape_appends_next_literal_witness :
    ('"' ≠ '\\') ∧
    parseLineAux ['\\', '"'] false false [] [] = parseLineAux [] false false ['"'] [] :=
  ⟨by decide, escape_appends_next_literal [] false [] [] '"' (by decide)⟩

/-- Claim C6: the tokenizer maps each of the five edge-case lines of
the source's test suite to exactly the specified token sequence. -/
theorem tokenizer_edge_cases :
    parse_line "cat ~/file" = ["cat", "~/file"] ∧
    parse_line "cat \"~/file\"" = ["cat", "~/file"] ∧
    parse_line "cat \"quoted arg\"" = ["cat", "quoted arg"] ∧
    parse_line "cat \"arg with \\\"embedded\\\" quotes" =
      ["cat", "arg with \"embedded\" quotes"] ∧
    parse_line "cat arg\\ with\\ escaped\\ spaces" =
      ["cat", "arg with escaped spaces"] := by
  refine ⟨?_, ?_, ?_, ?_, ?_⟩ <;> decide

/-- Claim C7 counterexample: the round trip fails when a
space-containing (hence quoted) token is not the last one — the space
after the closing quote pushes an empty token. -/
theorem roundtrip_cex :
    parse_line (joinTokens ["a b", "c"]) = ["a b", "", "c"] ∧
    parse_line (joinTokens ["a b", "c"]) ≠ ["a b", "c"] := by
  constructor <;> decide

/-- Claim C7 (amended): joining tokens with single spaces, wrapping
space-containing tokens in double quotes, and re-tokenizing recovers
the original sequence, provided every token is non-empty and free of
double quotes and backslashes, and only the last token contains a
space. -/
theorem tokenize_roundtrip (ts : List String)
    (h1 : ∀ t ∈ ts, t ≠ "" ∧ '"' ∉ t.data ∧ '\\' ∉ t.data)
    (h2 : ∀ t ∈ ts.dropLast, ' ' ∉ t.data) :
    parse_line (joinTokens ts) = ts := by
  unfold parse_line
  rw [joinTokens_data, roundtrip_chars (ts.map String.data) [] ?hp ?hs]
  · simp [Function.comp_def, mk_data]
  case hp =>
    intro u hu
    simp only [List.mem_map] at hu
    obtain ⟨t, ht, rfl⟩ := hu
    obtain ⟨hne, hq, hb⟩ := h1 t ht
    refine ⟨?_, hq, hb⟩
    intro hdata
    exact hne (eq_empty_of_data_eq_nil t hdata)
  case hs =>
    intro u hu
    rw [← List.map_dropLast] at hu
    simp only [List.mem_map] at hu
    obtain ⟨t, ht, rfl⟩ := hu
    exact h2 t ht

/-- Witness for `tokenize_roundtrip`. -/
theorem tokenize_roundtrip_witness :
    (∀ t ∈ (["cat", "my file"] : List String), t ≠ "" ∧ '"' ∉ t.data ∧ '\\' ∉ t.data) ∧
    (∀ t ∈ (["cat", "my file"] : List String).dropLast, ' ' ∉ t.data) ∧
    parse_line (joinTokens ["cat", "my file"]) = ["cat", "my file"] :=
  ⟨by decide, by decide, tokenize_roundtrip ["cat", "my file"] (by decide) (by decide)⟩

/-- Claim C8 counterexample: with the width set to 1, a 2-character
line is not printed as its first `1 - 3` characters plus an ellipsis
(which would be `"..."`): the `usize` subtraction wraps and the whole
line survives, giving `"ab..."`. -/
theorem head_trunc_cex :
    renderLine (some 1) "ab" = "ab..." ∧
    renderLine (some 1) "ab" ≠ String.mk (("ab" : String).data.take (1 - 3)) ++ "..." := by
  constructor <;> decide

/-- Claim C8 (amended): for a width of at least 3 (and within the
`usize` range, as any width set by `cols` is), a line longer than the
width is printed as its first `width - 3` characters followed by the
3-character ellipsis, and a line of at most the width is printed
unmodified. -/
theorem head_truncation (w : Nat) (line : String) (h3 : 3 ≤ w) (hw : w < USIZE) :
    renderLine (some w) line =
      if line.data.length > w then String.mk (line.data.take (w - 3)) ++ "..." else line := by
  have hmod : (w + USIZE - 3) % USIZE = w - 3 := by
    have h1 : w + USIZE - 3 = (w - 3) + USIZE := by omega
    rw [h1, Nat.add_mod_right, Nat.mod_eq_of_lt (by omega)]
  simp only [renderLine, renderChars, hmod]
  split
  · rfl
  · rfl

/-- Witness for `head_truncation`: width 10 truncates a 13-character
line to 7 characters plus the ellipsis. -/
theorem head_truncation_witness :
    (3 ≤ 10) ∧ (10 < USIZE) ∧
    renderLine (some 10) "abcdefghijklm" =
      (if ("abcdefghijklm" : String).data.length > 10 then
        String.mk (("abcdefghijklm" : String).data.take (10 - 3)) ++ "..."
      else "abcdefghijklm") :=
  ⟨by decide, by decide, head_truncation 10 "abcdefghijklm" (by decide) (by decide)⟩

/-- Claim C9 counterexample: `head 0` on a two-line document prints
one line, not `min 0 2 = 0` lines — the loop checks the counter only
after printing. -/
theorem head_zero_cex :
    (executeTokens parse0 fetch0 ["head", "0"] ⟨none, some "a\nb", some 80⟩).output.length = 1 ∧
    (executeTokens parse0 fetch0 ["head", "0"] ⟨none, some "a\nb", some 80⟩).output.length ≠
      min 0 ((splitLines ("a\nb" : String).data).map String.mk).length := by
  constructor <;> decide

/-- Claim C9 (amended): for `max ≥ 1`, a `head max` command with the
document set succeeds and prints exactly `min max n` lines — the first
`max` document lines, in order, each rendered at the current width —
where `n` is the document's line count. -/
theorem head_line_count (parse : String → Soup) (fetch : String → Except String (Nat × String))
    (mstr doc : String) (m : Nat) (st : SessionState)
    (hm : parseU32 mstr = some m) (h1 : 1 ≤ m) (hdoc : st.contents = some doc) :
    (executeTokens parse fetch ["head", mstr] st).outcome = Outcome.ok ∧
    (executeTokens parse fetch ["head", mstr] st).output =
      (((splitLines doc.data).map String.mk).take m).map (renderLine st.cols) ∧
    (executeTokens parse fetch ["head", mstr] st).output.length =
      min m ((splitLines doc.data).map String.mk).length := by
  have hrun : executeTokens parse fetch ["head", mstr] st =
      ⟨.ok, st, headLoop st.cols m ((splitLines doc.data).map String.mk) 0⟩ := by
    simp only [executeTokens, if_neg (show ¬("head" = "cols") by decide),
      if_neg (show ¬("head" = "find") by decide), if_neg (show ¬("head" = "url") by decide)]
    rw [if_pos trivial]
    simp only [hm, hdoc]
  rw [hrun, headLoop_eq_take st.cols m ((splitLines doc.data).map String.mk) 0 (by omega)]
  refine ⟨rfl, by simp, ?_⟩
  simp [List.length_take]

/-- Witness for `head_line_count`: `head 3` on a two-line document
prints both lines and succeeds. -/
theorem head_line_count_witness :
    parseU32 "3" = some 3 ∧ 1 ≤ 3 ∧
    (SessionState.mk none (some "a\nb") (some 80)).contents = some "a\nb" ∧
    ((executeTokens parse0 fetch0 ["head", "3"] ⟨none, some "a\nb", some 80⟩).outcome =
        Outcome.ok ∧
      (executeTokens parse0 fetch0 ["head", "3"] ⟨none, some "a\nb", some 80⟩).output =
        (((splitLines ("a\nb" : String).data).map String.mk).take 3).map
          (renderLine (SessionState.mk none (some "a\nb") (some 80)).cols) ∧
      (executeTokens parse0 fetch0 ["head", "3"] ⟨none, some "a\nb", some 80⟩).output.length =
        min 3 ((splitLines ("a\nb" : String).data).map String.mk).length) :=
  ⟨by decide, by decide, rfl,
    head_line_count parse0 fetch0 "3" "a\nb" 3 ⟨none, some "a\nb", some 80⟩
      (by decide) (by decide) rfl⟩

/-- Claim C10: any command other than `url` and `cols` — `find`,
`head`, an unrecognized command, or the empty token sequence — leaves
every field of the session state unchanged, whatever its outcome. -/
theorem only_url_cols_mutate (parse : String → Soup)
    (fetch : String → Except String (Nat × String)) (tokens : List String)
    (st : SessionState) (hu : tokens.head? ≠ some "url") (hc : tokens.head? ≠ some "cols") :
    (executeTokens parse fetch tokens st).state = st := by
  cases tokens with
  | nil => rfl
  | cons cmd rest =>
    have hcmdu : cmd ≠ "url" := by simpa using hu
    have hcmdc : cmd ≠ "cols" := by simpa using hc
    show (executeTokens parse fetch (cmd :: rest) st).state = st
    simp only [executeTokens]
    rw [if_neg hcmdc]
    by_cases hf : cmd = "find"
    · rw [if_pos hf]
      cases hcon : st.contents <;> rfl
    · rw [if_neg hf, if_neg hcmdu]
      by_cases hh : cmd = "head"
      · rw [if_pos hh]
        cases rest with
        | nil => rfl
        | cons m rest' =>
          cases hp : parseU32 m with
          | none => simp [hp]
          | some mx => cases hcon : st.contents <;> simp [hp, hcon]
      · rw [if_neg hh]

/-- Witness for `only_url_cols_mutate`: a failing `find` leaves the
state untouched. -/
theorem only_url_cols_mutate_witness :
    ((["find", "tag", "nonexistent"] : List String).head? ≠ some "url") ∧
    ((["find", "tag", "nonexistent"] : List String).head? ≠ some "cols") ∧
    (executeTokens parse0 fetch0 ["find", "tag", "nonexistent"]
        ⟨none, some "<p>", some 80⟩).state = ⟨none, some "<p>", some 80⟩ :=
  ⟨by decide, by decide,
    only_url_cols_mutate parse0 fetch0 ["find", "tag", "nonexistent"]
      ⟨none, some "<p>", some 80⟩ (by decide) (by decide)⟩

end MarkupExplorer
